import Mathlib

/-!
# Verification of the time-series anomaly-detection pipeline

Shallow embedding of the core of the repository: the schemas
(`app/schemas/data_point.py`, `app/schemas/time_series.py`,
`app/schemas/model_state.py`), the version allocator
(`app/database/series_version_record.py`), the metadata record lifecycle
(`app/database/anomaly_detection_record.py`), the storage backends
(`app/storage/local_storage.py`, `app/storage/aws_s3.py`), the training and
prediction services (`app/services/train.py`,
`app/services/anomaly_detection_service.py`,
`app/services/predict_service.py`) and the statistical model
(`app/core/model.py`).

Conventions of the embedding:
* Python `str` is `String`; character-level operations (`strip`, `partition`,
  `lstrip`) are modelled on `List Char`.
* Python `float` data values are modelled as `ℚ` where only ordering and
  equality matter, and the statistics of `SimpleModel` (mean, std) as `ℝ`.
* Python exceptions are values of `PyExc`; a function that can raise returns
  `Except PyExc α`.  FastAPI `HTTPException` is a structure of status code
  and detail string.
* The relational store is a `DBState` (committed, visible to other readers);
  a SQLAlchemy `Session` is a `SessionState`: the committed state plus
  pending (uncommitted) row and version-counter writes.  `commit` publishes
  pending writes, `rollback` discards them; a commit is durable and is NOT
  undone by a later rollback.
* The filesystem / object store is an association list from paths / keys to
  stored JSON documents.
-/

/-! ## Character-level helpers for Python string operations -/

/-- Python `str.strip()` with no argument: drop leading and trailing
whitespace. -/
def pyStrip (s : List Char) : List Char :=
  ((s.dropWhile Char.isWhitespace).reverse.dropWhile Char.isWhitespace).reverse

/-- Python `str.lstrip("/")`: drop leading slashes. -/
def pyLstripSlash (s : List Char) : List Char :=
  s.dropWhile (fun c => c = '/')

/-- Python `str.partition(sep)` for a one-character separator: the part
before the first occurrence, whether the separator occurred, and the part
after it. -/
def partitionChar (c : Char) : List Char → List Char × Bool × List Char
  | [] => ([], false, [])
  | x :: xs =>
      if x = c then ([], true, xs)
      else
        let r := partitionChar c xs
        (x :: r.1, r.2.1, r.2.2)

/-! ## `app/schemas/data_point.py` and `app/schemas/time_series.py` -/

/-- A single timestamped sample (`DataPoint`): `timestamp` is an integer Unix
timestamp and `value` a finite numeric value (modelled as `ℚ`). -/
structure DataPoint where
  timestamp : Int
  value : ℚ
deriving DecidableEq, Repr

/-- Ordered collection of `DataPoint` samples (`TimeSeries`). -/
structure TimeSeries where
  data : List DataPoint
deriving DecidableEq, Repr

/-- `TimeSeries.validate_series_shape`: at least 2 points and strictly
increasing timestamps (the model validator that runs when a `TimeSeries`
is constructed). -/
def TimeSeries.validate_series_shape (ts : TimeSeries) : Except String TimeSeries :=
  if ts.data.length < 2 then
    .error "TimeSeries must contain at least 2 data points."
  else
    let timestamps := ts.data.map (·.timestamp)
    if (timestamps.zip (timestamps.drop 1)).any (fun p => p.2 ≤ p.1) then
      .error "TimeSeries timestamps must be strictly increasing."
    else
      .ok ts

/-- Python `all(value == first_value for value in values)` over the list of
values (vacuously true on the empty list, as in Python). -/
def constantValues : List ℚ → Bool
  | [] => true
  | v :: rest => rest.all (fun x => x = v)

/-- `TimeSeries.validate_for_training`: the training preflight rules — at
least `min_points` points (configured minimum, default 3) and not
all-constant values. -/
def TimeSeries.validate_for_training (min_points : Nat) (ts : TimeSeries) :
    Except String TimeSeries :=
  if ts.data.length < min_points then
    .error "Input list must contain at least the configured minimum of data points."
  else if constantValues (ts.data.map (·.value)) then
    .error "Input list cannot contain constant values only."
  else
    .ok ts

/-- Constructing a `TimeSeries` from raw data runs the shape validator
(Pydantic model validation), and the training flow then applies
`validate_for_training`: the full validation a training payload goes
through. -/
def trainingValidation (min_points : Nat) (data : List DataPoint) :
    Except String TimeSeries :=
  (TimeSeries.validate_series_shape ⟨data⟩).bind
    (TimeSeries.validate_for_training min_points)

/-! ## JSON documents and `app/schemas/model_state.py` -/

/-- JSON values, as produced by `json.dump` of Pydantic `model_dump`
payloads.  Numbers are modelled as `ℚ`. -/
inductive Json where
  | null : Json
  | bool (b : Bool) : Json
  | num (q : ℚ) : Json
  | str (s : String) : Json
  | arr (elems : List Json) : Json
  | obj (fields : List (String × Json)) : Json

/-- Field lookup in a JSON object (first occurrence of the key). -/
def lookupField : List (String × Json) → String → Option Json
  | [], _ => none
  | (k, v) :: rest, key => if k = key then some v else lookupField rest key

/-- `Json.getField`: field access on an object, `none` elsewhere. -/
def Json.getField (j : Json) (key : String) : Option Json :=
  match j with
  | .obj fields => lookupField fields key
  | _ => none

/-- `ModelState`: model identifier, serializable parameter mapping, optional
metrics mapping (`app/schemas/model_state.py`).  Mappings are association
lists of string keys to JSON values. -/
structure ModelState where
  model : String
  parameters : List (String × Json)
  metrics : Option (List (String × Json))

/-- `ModelState.model_dump(mode="json")`: the JSON document written to
storage. -/
def ModelState.model_dump (st : ModelState) : Json :=
  .obj [("model", .str st.model),
        ("parameters", .obj st.parameters),
        ("metrics", match st.metrics with
          | none => .null
          | some m => .obj m)]

/-- `ModelState.model_validate`: parse a JSON document back into a
`ModelState`, failing with a validation error on any shape mismatch. -/
def ModelState.model_validate (j : Json) : Except String ModelState :=
  match j.getField "model", j.getField "parameters" with
  | some (.str m), some (.obj params) =>
      match j.getField "metrics" with
      | none => .ok ⟨m, params, none⟩
      | some .null => .ok ⟨m, params, none⟩
      | some (.obj ms) => .ok ⟨m, params, some ms⟩
      | some _ => .error "Input should be a valid dictionary."
  | _, _ => .error "Input should be a valid ModelState."

/-! ## `app/database/series_version_record.py`: the version allocator

The `series_versions` table has one row per series: `(series_id,
last_version)`.  It is modelled as an association list; `next_version` is
the single `INSERT ... ON CONFLICT ... DO UPDATE ... RETURNING` upsert,
one atomic step on the table. -/

/-- The `series_versions` table: `series_id → last_version`. -/
abbrev VersionTable := List (String × Int)

/-- Row lookup in the version table (first occurrence). -/
def lookupV : VersionTable → String → Option Int
  | [], _ => none
  | (k, v) :: rest, key => if k = key then some v else lookupV rest key

/-- In-place update of the first row with the given key. -/
def setV : VersionTable → String → Int → VersionTable
  | [], _, _ => []
  | (k, v) :: rest, key, n =>
      if k = key then (k, n) :: rest else (k, v) :: setV rest key n

/-- The `last_version` currently stored for a series (0 when the series has
no row yet, matching the state before the first insert). -/
def curVersion (tbl : VersionTable) (series_id : String) : Int :=
  (lookupV tbl series_id).getD 0

/-- `SeriesVersionRecord.next_version`: the single upsert statement —
insert `(series_id, last_version=1)`; on conflict on `series_id`, set
`last_version = last_version + 1`; return the resulting `last_version`.
One atomic step: there is no separate read followed by a write, so
concurrent calls serialize on this step. -/
def SeriesVersionRecord.next_version (tbl : VersionTable) (series_id : String) :
    Int × VersionTable :=
  match lookupV tbl series_id with
  | none => (1, (series_id, 1) :: tbl)
  | some v => (v + 1, setV tbl series_id (v + 1))

/-- A sequence of `n` `next_version` calls for the same series: the list of
returned versions and the final table.  Because each call is one atomic
step, any interleaving of concurrent callers is one such sequence. -/
def next_version_calls (tbl : VersionTable) (series_id : String) :
    Nat → List Int × VersionTable
  | 0 => ([], tbl)
  | n + 1 =>
      let r := SeriesVersionRecord.next_version tbl series_id
      let rest := next_version_calls r.2 series_id n
      (r.1 :: rest.1, rest.2)

/-! ## `app/database/anomaly_detection_record.py`: the metadata record -/

/-- `AnomalyDetectionRecord`: a row of `anomaly_detection_models`, keyed by
`(series_id, version)`; `version` is `none` until assigned on save;
`model_path`/`data_path` are null until artifacts are written.  Timestamps
are abstract clock readings (`Int`). -/
structure AnomalyDetectionRecord where
  series_id : String
  version : Option Int
  model_path : Option String
  data_path : Option String
  created_at : Int
  updated_at : Int
deriving DecidableEq, Repr

/-- `AnomalyDetectionRecord.build`: construct a new record with both
timestamps set to the current time; pure, no I/O. -/
def AnomalyDetectionRecord.build (series_id : String) (version : Option Int)
    (model_path data_path : Option String) (now : Int) : AnomalyDetectionRecord :=
  { series_id := series_id
    version := version
    model_path := model_path
    data_path := data_path
    created_at := now
    updated_at := now }

/-- The committed relational state, visible to all readers. -/
structure DBState where
  versions : VersionTable
  models : List AnomalyDetectionRecord
deriving DecidableEq, Repr

/-- Insert-or-replace a row by its primary key `(series_id, version)`
(what flushing a `session.add` amounts to at commit). -/
def upsertRow (rows : List AnomalyDetectionRecord) (m : AnomalyDetectionRecord) :
    List AnomalyDetectionRecord :=
  if rows.any (fun r => r.series_id = m.series_id ∧ r.version = m.version) then
    rows.map (fun r =>
      if r.series_id = m.series_id ∧ r.version = m.version then m else r)
  else
    rows ++ [m]

/-- A SQLAlchemy session: the committed store plus the transaction's pending
writes (added rows, and the in-transaction version-counter table when the
allocator upsert has executed). -/
structure SessionState where
  db : DBState
  pendingModels : List AnomalyDetectionRecord
  pendingVersions : Option VersionTable
deriving DecidableEq, Repr

/-- The version table as seen inside the transaction. -/
def SessionState.effVersions (s : SessionState) : VersionTable :=
  s.pendingVersions.getD s.db.versions

/-- `session.add(model)`: stage a row for the next flush/commit. -/
def SessionState.add (s : SessionState) (m : AnomalyDetectionRecord) : SessionState :=
  { s with pendingModels := s.pendingModels ++ [m] }

/-- `session.commit()`: publish all pending writes durably.  A later
rollback does not undo a commit. -/
def SessionState.commit (s : SessionState) : SessionState :=
  { db := { versions := s.effVersions
            models := s.pendingModels.foldl upsertRow s.db.models }
    pendingModels := []
    pendingVersions := none }

/-- `session.rollback()`: discard pending (uncommitted) writes only. -/
def SessionState.rollback (s : SessionState) : SessionState :=
  { s with pendingModels := [], pendingVersions := none }

/-- `AnomalyDetectionRecord.save`: if the version is missing, assign it via
`SeriesVersionRecord.next_version`, then `session.add` the row and
`session.commit`; return the stored version (with the saved record and the
session after the commit). -/
def AnomalyDetectionRecord.save (s : SessionState) (m : AnomalyDetectionRecord) :
    Int × AnomalyDetectionRecord × SessionState :=
  match m.version with
  | none =>
      let r := SeriesVersionRecord.next_version s.effVersions m.series_id
      let m' := { m with version := some r.1 }
      let s' := { s with pendingVersions := some r.2 }
      (r.1, m', ((s'.add m').commit))
  | some v => (v, m, ((s.add m).commit))

/-- `AnomalyDetectionRecord.update`: set both storage paths, refresh
`updated_at`, and persist through the record's active session
(`session.add` + `session.commit`).  On a record with no active session
association (`object_session(self) is None`) it raises
`RuntimeError("AnomalyDetectionRecord is not attached to a session")` and
persists nothing. -/
def AnomalyDetectionRecord.update (m : AnomalyDetectionRecord)
    (model_path data_path : Option String) (now : Int)
    (session : Option SessionState) :
    Except String (AnomalyDetectionRecord × SessionState) :=
  let m' := { m with model_path := model_path, data_path := data_path,
                     updated_at := now }
  match session with
  | none => .error "AnomalyDetectionRecord is not attached to a session"
  | some s => .ok (m', ((s.add m').commit))

/-! ## The deferred-commit record class of `app.database.anomaly_detection`

`app/services/train.py` imports `AnomalyDetectionRecord` from
`app.database.anomaly_detection`, a module whose file is not among the
repository files under `src/` — only its callers
(`app/services/train.py`) and its tests
(`src/tests/test_database_records.py`) are.  Unlike the staged
`app/database/anomaly_detection_record.py` class above (whose `save` and
`update` each commit), this class defers the relational commit: per the
spec (§4.4 step 6, §9 "build-then-save-then-update-then-commit") and the
tests, `save` only `session.add`s and `session.flush`es the row, `update`
sets the paths without committing (`session.commit.assert_not_called`),
and the separate `commit()` method issues the transaction's only commit.
A flushed-but-uncommitted row lives in the session's pending write set:
it is discarded by a rollback. -/

/-- Modelled from the spec: `Save(record) -> version` of the
`app.database.anomaly_detection` record class (absent from `src/`) — if
the version is null, assign it via the Version Allocator, then persist the
row into the transaction (`session.add` + `session.flush`, no commit: the
repository's tests assert `session.flush` and never a commit here) and
return the resolved version. -/
def AnomalyDetection.save (s : SessionState) (m : AnomalyDetectionRecord) :
    Int × AnomalyDetectionRecord × SessionState :=
  match m.version with
  | none =>
      let r := SeriesVersionRecord.next_version s.effVersions m.series_id
      let m' := { m with version := some r.1 }
      (r.1, m', (({ s with pendingVersions := some r.2 }).add m'))
  | some v => (v, m, (s.add m))

/-- Modelled from the spec: `Update(model_path, data_path)` of the
`app.database.anomaly_detection` record class (absent from `src/`) — set
both paths and refresh `updated_at` inside the live transaction, WITHOUT
committing (the tests assert `session.commit` is not called); raise the
"unattached" `RuntimeError` when the record has no active session. -/
def AnomalyDetection.update (m : AnomalyDetectionRecord)
    (model_path data_path : Option String) (now : Int)
    (session : Option SessionState) :
    Except String (AnomalyDetectionRecord × SessionState) :=
  let m' := { m with model_path := model_path, data_path := data_path,
                     updated_at := now }
  match session with
  | none => .error "AnomalyDetectionRecord is not attached to a session"
  | some s => .ok (m', (s.add m'))

/-- Modelled from the spec: `commit()` of the
`app.database.anomaly_detection` record class (absent from `src/`) —
commit the record's session (the transaction's only commit, per the tests);
raise the "unattached" `RuntimeError` when the record has no active
session. -/
def AnomalyDetection.commit : Option SessionState → Except String SessionState
  | none => .error "AnomalyDetectionRecord is not attached to a session"
  | some s => .ok s.commit

/-! ## Exceptions and HTTP errors -/

/-- FastAPI `HTTPException`: status code and detail message. -/
structure HTTPException where
  status_code : Nat
  detail : String
deriving DecidableEq, Repr

/-- The Python exceptions the services distinguish: Pydantic
`ValidationError`, `ValueError`, `FileNotFoundError`, re-raised
`HTTPException`, `RuntimeError`, and any other exception. -/
inductive PyExc where
  | validationError (msg : String)
  | valueError (msg : String)
  | fileNotFoundError (path : String)
  | httpException (e : HTTPException)
  | runtimeError (msg : String)
  | other (msg : String)
deriving DecidableEq, Repr

/-! ## `app/storage/local_storage.py`: the local backend

The filesystem is an association list from path strings to stored JSON
documents; a write prepends (reads take the first occurrence, so a write
overwrites). -/

/-- The local filesystem: path → stored JSON document. -/
abbrev FileSystem := List (String × Json)

/-- Write a JSON document at a path (overwriting). -/
def fsWrite (fs : FileSystem) (path : String) (content : Json) : FileSystem :=
  (path, content) :: fs

/-- Read the JSON document at a path, `none` when the file is missing. -/
def fsRead : FileSystem → String → Option Json
  | [], _ => none
  | (p, j) :: rest, path => if p = path then some j else fsRead rest path

/-- The local model-state path:
`{folder}/{series_id}/{series_id}_model_v{version}.json`. -/
def LocalStorage.statePath (folder series_id : String) (version : Int) : String :=
  folder ++ "/" ++ series_id ++ "/" ++ series_id ++ "_model_v" ++
    toString version ++ ".json"

/-- The local training-data path:
`{folder}/{series_id}/{series_id}_data_v{version}.json`. -/
def LocalStorage.dataPath (folder series_id : String) (version : Int) : String :=
  folder ++ "/" ++ series_id ++ "/" ++ series_id ++ "_data_v" ++
    toString version ++ ".json"

/-- `LocalStorage.save_state`: dump the model state as JSON at the state
path (creating directories as needed) and return that path. -/
def LocalStorage.save_state (folder : String) (fs : FileSystem)
    (series_id : String) (version : Int) (state : ModelState) :
    String × FileSystem :=
  let path := LocalStorage.statePath folder series_id version
  (path, fsWrite fs path state.model_dump)

/-- The JSON document a `TimeSeries` is dumped as. -/
def TimeSeries.model_dump (ts : TimeSeries) : Json :=
  .obj [("data", .arr (ts.data.map (fun p =>
    .obj [("timestamp", .num p.timestamp), ("value", .num p.value)])))]

/-- `LocalStorage.save_data`: dump the training data as JSON at the data
path and return that path. -/
def LocalStorage.save_data (folder : String) (fs : FileSystem)
    (series_id : String) (version : Int) (payload : TimeSeries) :
    String × FileSystem :=
  let path := LocalStorage.dataPath folder series_id version
  (path, fsWrite fs path payload.model_dump)

/-- `LocalStorage.load_state`: open the file at the path
(`FileNotFoundError` when missing), parse it as JSON and validate it as a
`ModelState` (`ValidationError` on shape mismatch). -/
def LocalStorage.load_state (fs : FileSystem) (model_path : String) :
    Except PyExc ModelState :=
  match fsRead fs model_path with
  | none => .error (.fileNotFoundError model_path)
  | some j =>
      match ModelState.model_validate j with
      | .error msg => .error (.validationError msg)
      | .ok st => .ok st

/-! ## `app/storage/aws_s3.py`: the object-store backend -/

/-- The S3 object store: `(bucket, key) → stored JSON document`. -/
abbrev S3Objects := List ((String × String) × Json)

/-- `put_object`. -/
def s3Put (objs : S3Objects) (bucket key : String) (content : Json) : S3Objects :=
  ((bucket, key), content) :: objs

/-- `get_object`, `none` when the object is missing (`NoSuchKey`). -/
def s3Get : S3Objects → String → String → Option Json
  | [], _, _ => none
  | ((b, k), j) :: rest, bucket, key =>
      if b = bucket ∧ k = key then some j else s3Get rest bucket key

/-- `AWSS3Storage._object_key`: `{prefix}/{series_id}/{filename}`, or
`{series_id}/{filename}` when the prefix is empty. -/
def AWSS3Storage.object_key (keyPrefix series_id filename : String) : String :=
  if keyPrefix = "" then series_id ++ "/" ++ filename
  else keyPrefix ++ "/" ++ series_id ++ "/" ++ filename

/-- `AWSS3Storage._to_uri`: the canonical `s3://bucket/key` URI. -/
def AWSS3Storage.to_uri (bucket key : String) : String :=
  "s3://" ++ bucket ++ "/" ++ key

/-- `AWSS3Storage._resolve_bucket_and_key`: strip the value; a value
starting with `s3://` is parsed by dropping the scheme and partitioning on
the first `/` into bucket and key (`ValueError` when either side or the
separator is missing); any other value is a bare key in the configured
bucket, with leading slashes stripped. -/
def AWSS3Storage.resolve_bucket_and_key (selfBucket path : String) :
    Except PyExc (String × String) :=
  let value := pyStrip path.data
  if ("s3://".data).isPrefixOf value then
    let without_scheme := value.drop 5
    let r := partitionChar '/' without_scheme
    if r.1 = [] ∨ r.2.1 = false ∨ r.2.2 = [] then
      .error (.valueError ("Invalid S3 URI: '" ++ path ++ "'"))
    else
      .ok (String.mk r.1, String.mk r.2.2)
  else
    .ok (selfBucket, String.mk (pyLstripSlash value))

/-- `AWSS3Storage.save_state`: put the dumped model state at the object key
and return the `s3://bucket/key` URI. -/
def AWSS3Storage.save_state (bucket keyPrefix : String) (objs : S3Objects)
    (series_id : String) (version : Int) (state : ModelState) :
    String × S3Objects :=
  let key := AWSS3Storage.object_key keyPrefix series_id
    (series_id ++ "_model_v" ++ toString version ++ ".json")
  (AWSS3Storage.to_uri bucket key, s3Put objs bucket key state.model_dump)

/-- `AWSS3Storage.load_state`: resolve bucket and key from the path, get the
object (`FileNotFoundError` when missing) and validate it as a
`ModelState`. -/
def AWSS3Storage.load_state (selfBucket : String) (objs : S3Objects)
    (model_path : String) : Except PyExc ModelState :=
  match AWSS3Storage.resolve_bucket_and_key selfBucket model_path with
  | .error e => .error e
  | .ok bk =>
      match s3Get objs bk.1 bk.2 with
      | none => .error (.fileNotFoundError model_path)
      | some j =>
          match ModelState.model_validate j with
          | .error msg => .error (.validationError msg)
          | .ok st => .ok st

/-! ## `app/services/train.py`: `TrainService`

The service is polymorphic over the trainer (`Trainer.train : TimeSeries →
ModelState`, which may raise anything) and the storage backend
(`save_state`/`save_data` return the artifact path or raise); they are
passed as functions.  `TrainResponse` is the success payload. -/

/-- `TrainResponse`: series id, resolved version (as string), points used. -/
structure TrainResponse where
  series_id : String
  version : String
  points_used : Nat
deriving DecidableEq, Repr

/-- An abstract artifact-writing step: from the current filesystem, the
series id, the allocated version and the payload, produce the stored path
and the new filesystem — or raise. -/
abbrev SaveStateFn := FileSystem → String → Int → ModelState →
  Except PyExc (String × FileSystem)

/-- The training-data artifact step. -/
abbrev SaveDataFn := FileSystem → String → Int → TimeSeries →
  Except PyExc (String × FileSystem)

/-- An abstract trainer step (`self.trainer.train(time_series)`), which may
raise any exception. -/
abbrev TrainerFn := TimeSeries → Except PyExc ModelState

/-- The body of `TrainService.train`'s `try` block, threading the session
and filesystem through each step so that a failure reports the state at the
point it was raised:
validate → fit → build placeholder → save (allocates version; add + flush,
no commit) → write both artifacts → update paths (no commit) →
`model_record.commit()` (the transaction's only commit) → respond.
The record operations are those of `app.database.anomaly_detection`, the
deferred-commit class `train.py` imports (modelled from the spec, see
above). -/
def TrainService.trainCore (tt : TrainerFn) (sst : SaveStateFn)
    (sdt : SaveDataFn) (min_points : Nat) (now : Int) (s : SessionState)
    (fs : FileSystem) (series_id : String) (payload : List DataPoint) :
    Except PyExc TrainResponse × SessionState × FileSystem :=
  match trainingValidation min_points payload with
  | .error msg => (.error (.valueError msg), s, fs)
  | .ok time_series =>
  match tt time_series with
  | .error e => (.error e, s, fs)
  | .ok state =>
  let model_record := AnomalyDetectionRecord.build series_id none none none now
  let saved := AnomalyDetection.save s model_record
  let version := saved.1
  let s := saved.2.2
  match sst fs series_id version state with
  | .error e => (.error e, s, fs)
  | .ok (model_path, fs) =>
  match sdt fs series_id version time_series with
  | .error e => (.error e, s, fs)
  | .ok (data_path, fs) =>
  match AnomalyDetection.update saved.2.1 (some model_path) (some data_path)
      now (some s) with
  | .error msg => (.error (.runtimeError msg), s, fs)
  | .ok (_, s) =>
  match AnomalyDetection.commit (some s) with
  | .error msg => (.error (.runtimeError msg), s, fs)
  | .ok s =>
  (.ok { series_id := series_id, version := toString version,
         points_used := time_series.data.length }, s, fs)

/-- The `except` chain of `TrainService.train`: Pydantic `ValidationError`
and `ValueError` → 422 with the error details; `HTTPException` re-raised;
any other exception → 500 with a stable message. -/
def TrainService.errorToHTTP : PyExc → HTTPException
  | .validationError msg => { status_code := 422, detail := msg }
  | .valueError msg => { status_code := 422, detail := msg }
  | .httpException e => e
  | _ => { status_code := 500, detail := "Unexpected error while training model." }

/-- `TrainService.train`: run the `try` block; on any exception roll back
the relational transaction and raise the mapped `HTTPException`. -/
def TrainService.train (tt : TrainerFn) (sst : SaveStateFn) (sdt : SaveDataFn)
    (min_points : Nat) (now : Int) (s : SessionState) (fs : FileSystem)
    (series_id : String) (payload : List DataPoint) :
    Except HTTPException TrainResponse × SessionState × FileSystem :=
  match TrainService.trainCore tt sst sdt min_points now s fs series_id payload with
  | (.ok resp, s', fs') => (.ok resp, s', fs')
  | (.error e, s', fs') => (.error (TrainService.errorToHTTP e), s'.rollback, fs')

/-! ## `app/services/anomaly_detection_service.py`:
`AnomalyDetectionTrainingService` -/

/-- `AnomalyDetectionTrainingService._to_time_series`: the preflight
validation, wrapping a `ValueError` into an `HTTPException` 422 (raised
before the `try` block of `train`). -/
def AnomalyDetectionTrainingService.to_time_series (min_points : Nat)
    (payload : List DataPoint) : Except HTTPException TimeSeries :=
  match trainingValidation min_points payload with
  | .error msg => .error { status_code := 422, detail := msg }
  | .ok ts => .ok ts

/-- The `try` block of `AnomalyDetectionTrainingService.train`: fit → build
placeholder → save → write both artifacts → update paths (no separate final
commit in this service). -/
def AnomalyDetectionTrainingService.trainCore (tt : TrainerFn)
    (sst : SaveStateFn) (sdt : SaveDataFn) (now : Int) (s : SessionState)
    (fs : FileSystem) (series_id : String) (time_series : TimeSeries) :
    Except PyExc Unit × SessionState × FileSystem :=
  match tt time_series with
  | .error e => (.error e, s, fs)
  | .ok state =>
  let model_record := AnomalyDetectionRecord.build series_id none none none now
  let saved := AnomalyDetectionRecord.save s model_record
  let version := saved.1
  let s := saved.2.2
  match sst fs series_id version state with
  | .error e => (.error e, s, fs)
  | .ok (model_path, fs) =>
  match sdt fs series_id version time_series with
  | .error e => (.error e, s, fs)
  | .ok (data_path, fs) =>
  match saved.2.1.update (some model_path) (some data_path) now (some s) with
  | .error msg => (.error (.runtimeError msg), s, fs)
  | .ok (_, s) => (.ok (), s, fs)

/-- `AnomalyDetectionTrainingService.train`: validation failures propagate
as `HTTPException`; inside the `try` block, success returns `True`, and ANY
exception is swallowed — the session is rolled back and `False` is
returned. -/
def AnomalyDetectionTrainingService.train (tt : TrainerFn) (sst : SaveStateFn)
    (sdt : SaveDataFn) (min_points : Nat) (now : Int) (s : SessionState)
    (fs : FileSystem) (series_id : String) (payload : List DataPoint) :
    Except HTTPException Bool × SessionState × FileSystem :=
  match AnomalyDetectionTrainingService.to_time_series min_points payload with
  | .error e => (.error e, s, fs)
  | .ok time_series =>
    match AnomalyDetectionTrainingService.trainCore tt sst sdt now s fs
        series_id time_series with
    | (.ok _, s', fs') => (.ok true, s', fs')
    | (.error _, s', fs') => (.ok false, s'.rollback, fs')

/-! ## Metadata retrieval (`GetLastModel` / `GetModelVersion`)

`AnomalyDetectionRecord.get_last_model` and
`AnomalyDetectionRecord.get_model_version` are called by
`app/services/predict_service.py` and exercised by
`src/tests/test_database_records.py`, but their definitions are not among
the repository files under `src/`; they are modelled from the spec. -/

/-- The version stored in a row (committed rows always carry one). -/
def AnomalyDetectionRecord.ver (r : AnomalyDetectionRecord) : Int :=
  r.version.getD 0

/-- The later of two rows by version (`order_by version desc` picks the
first, i.e. the row of maximum version). -/
def laterRow (a b : AnomalyDetectionRecord) : AnomalyDetectionRecord :=
  if b.ver > a.ver then b else a

/-- The row of maximum version among candidates, `none` when there is
none. -/
def maxVersionRow (rows : List AnomalyDetectionRecord) :
    Option AnomalyDetectionRecord :=
  rows.foldl (fun acc r =>
    match acc with
    | none => some r
    | some b => some (laterRow b r)) none

/-- Modelled from the spec: `GetLastModel(series_id) -> RecordView` —
"returns the row with the maximum version for series_id, or fails with
NotFound" (a `ValueError`, per the service's exception mapping and the
repository's tests: "No model found for series_id").  The definition is
absent from the staged sources; only its callers and tests are. -/
def AnomalyDetectionRecord.get_last_model (db : DBState) (series_id : String) :
    Except PyExc AnomalyDetectionRecord :=
  match maxVersionRow (db.models.filter (fun r => r.series_id = series_id)) with
  | none => .error (.valueError
      ("No model found for series_id '" ++ series_id ++ "'."))
  | some r => .ok r

/-- Modelled from the spec: `GetModelVersion(series_id, version) ->
RecordView` — "returns the exact row or fails with NotFound" (a
`ValueError`, per the tests: "Model version ... not found").  The
definition is absent from the staged sources; only its callers and tests
are. -/
def AnomalyDetectionRecord.get_model_version (db : DBState)
    (series_id : String) (version : Int) :
    Except PyExc AnomalyDetectionRecord :=
  match db.models.find? (fun r => r.series_id = series_id ∧
      r.version = some version) with
  | none => .error (.valueError
      ("Model version '" ++ toString version ++ "' not found for series_id '"
        ++ series_id ++ "'."))
  | some r => .ok r

/-! ## `app/services/predict_service.py`: `PredictService` -/

/-- `PredictResponse`: the anomaly flag and the version of the model
actually used, as a string. -/
structure PredictResponse where
  anomaly : Bool
  model_version : String
deriving DecidableEq, Repr

/-- `PredictService._validate_predict_inputs`: blank `series_id` → 400;
negative version → 400. -/
def PredictService.validate_predict_inputs (series_id : String)
    (version : Int) : Except HTTPException Unit :=
  if pyStrip series_id.data = [] then
    .error { status_code := 400,
             detail := "series_id must be a non-empty string." }
  else if version < 0 then
    .error { status_code := 400,
             detail := "version must be greater than or equal to 0." }
  else
    .ok ()

/-- `PredictService._get_model_data`: version 0 resolves to the latest row
(`get_last_model`), any other version to exactly that row
(`get_model_version`); a `ValueError` (missing metadata) becomes a 404. -/
def PredictService.get_model_data (db : DBState) (series_id : String)
    (version : Int) : Except HTTPException AnomalyDetectionRecord :=
  let r := if version = 0 then
    AnomalyDetectionRecord.get_last_model db series_id
  else
    AnomalyDetectionRecord.get_model_version db series_id version
  match r with
  | .error (.valueError msg) => .error { status_code := 404, detail := msg }
  | .error _ => .error { status_code := 404, detail := "" }
  | .ok record => .ok record

/-- An abstract `storage.load_state` step. -/
abbrev LoadStateFn := String → Except PyExc ModelState

/-- An abstract `self.model.load(state); self.model.predict(data_point)`
step, which may raise. -/
abbrev RunModelFn := ModelState → DataPoint → Except PyExc Bool

/-- `PredictService.predict`: validate the payload and inputs, resolve the
metadata record, require a non-null `model_path` (500 "Model path is
missing ..." otherwise), load the state and run inference
(`FileNotFoundError` → 404 "Model artifact was not found ...";
`HTTPException` re-raised; anything else → 500), and answer with the
anomaly flag and the version of the row actually used. -/
def PredictService.predict (loadSt : LoadStateFn) (runModel : RunModelFn)
    (db : DBState) (series_id : String) (version : Int)
    (payload : DataPoint) : Except HTTPException PredictResponse :=
  match PredictService.validate_predict_inputs series_id version with
  | .error e => .error e
  | .ok _ =>
  match PredictService.get_model_data db series_id version with
  | .error e => .error e
  | .ok model_data =>
  match model_data.model_path with
  | none => .error ⟨500, "Model path is missing for series_id '" ++ series_id ++
      "' and version '" ++ toString model_data.ver ++ "'."⟩
  | some model_path =>
    match (loadSt model_path).bind (fun st => runModel st payload) with
    | .error (.fileNotFoundError _) => .error ⟨404,
        "Model artifact was not found at path '" ++ model_path ++ "'."⟩
    | .error (.httpException e) => .error e
    | .error _ => .error ⟨500, "Unexpected error while predicting anomaly."⟩
    | .ok prediction =>
        .ok { anomaly := prediction, model_version := toString model_data.ver }

/-! ## `app/core/model.py`: `SimpleModel`

`numpy` float statistics are idealized over `ℝ`: `np.mean` is the sum over
the length, `np.std` the square root of the mean squared deviation. -/

/-- `np.mean` over a list of reals. -/
noncomputable def npMean (xs : List ℝ) : ℝ := xs.sum / xs.length

/-- `np.std` (population standard deviation) over a list of reals. -/
noncomputable def npStd (xs : List ℝ) : ℝ :=
  Real.sqrt ((xs.map (fun x => (x - npMean xs) ^ 2)).sum / xs.length)

/-- The fitted state of `SimpleModel`: the attributes `mean` and `std`. -/
structure SimpleModelFit where
  mean : ℝ
  std : ℝ

/-- `SimpleModel.fit`: set `mean`/`std` to the mean and standard deviation
of the training values. -/
noncomputable def SimpleModel.fit (data : TimeSeries) : SimpleModelFit :=
  let values_stream : List ℝ := data.data.map (fun p => (p.value : ℝ))
  { mean := npMean values_stream, std := npStd values_stream }

/-- `SimpleModel.predict`: on a model that has been neither fitted nor
loaded (no `mean`/`std` attributes) raise
`ValueError("Model must be trained before prediction.")`; otherwise return
whether the value is strictly greater than `mean + 3 * std`. -/
noncomputable def SimpleModel.predict (fitted : Option SimpleModelFit)
    (data_point : DataPoint) : Except PyExc Bool :=
  match fitted with
  | none => .error (.valueError "Model must be trained before prediction.")
  | some m => .ok (decide ((data_point.value : ℝ) > m.mean + 3 * m.std))

/-! ## Lemmas about the version allocator -/

theorem lookupV_setV_self (tbl : VersionTable) (key : String) (n : Int)
    (h : (lookupV tbl key).isSome) : lookupV (setV tbl key n) key = some n := by
  induction tbl with
  | nil => simp [lookupV] at h
  | cons p rest ih =>
      obtain ⟨k, v⟩ := p
      by_cases hk : k = key
      · simp [setV, lookupV, hk]
      · simp [setV, lookupV, hk] at h ⊢
        exact ih h

theorem lookupV_setV_ne (tbl : VersionTable) (key k' : String) (n : Int)
    (h : k' ≠ key) : lookupV (setV tbl key n) k' = lookupV tbl k' := by
  induction tbl with
  | nil => simp [setV]
  | cons p rest ih =>
      obtain ⟨k, v⟩ := p
      by_cases hk : k = key
      · subst hk
        simp [setV, lookupV, Ne.symm h]
      · simp [setV, lookupV, hk, ih]

theorem next_version_fst (tbl : VersionTable) (sid : String) :
    (SeriesVersionRecord.next_version tbl sid).1 = curVersion tbl sid + 1 := by
  unfold SeriesVersionRecord.next_version curVersion
  cases h : lookupV tbl sid <;> simp [h]

theorem curVersion_next_self (tbl : VersionTable) (sid : String) :
    curVersion (SeriesVersionRecord.next_version tbl sid).2 sid =
      curVersion tbl sid + 1 := by
  unfold SeriesVersionRecord.next_version curVersion
  cases h : lookupV tbl sid with
  | none => simp [h, lookupV]
  | some v =>
      have : (lookupV tbl sid).isSome := by simp [h]
      simp [h, lookupV_setV_self tbl sid (v + 1) this]

theorem curVersion_next_other (tbl : VersionTable) (sid sid' : String)
    (h : sid' ≠ sid) :
    curVersion (SeriesVersionRecord.next_version tbl sid).2 sid' =
      curVersion tbl sid' := by
  unfold SeriesVersionRecord.next_version curVersion
  cases hl : lookupV tbl sid with
  | none => simp [lookupV, Ne.symm h]
  | some v => simp [lookupV_setV_ne tbl sid sid' (v + 1) h]

theorem curVersion_next_mono (tbl : VersionTable) (sid sid' : String) :
    curVersion tbl sid' ≤
      curVersion (SeriesVersionRecord.next_version tbl sid).2 sid' := by
  by_cases h : sid' = sid
  · subst h
    rw [curVersion_next_self]
    omega
  · rw [curVersion_next_other tbl sid sid' h]

theorem next_version_calls_formula (sid : String) (n : Nat) :
    ∀ tbl : VersionTable, (next_version_calls tbl sid n).1 =
      (List.range n).map (fun i : Nat => curVersion tbl sid + (i : Int) + 1) := by
  induction n with
  | zero => intro tbl; simp [next_version_calls]
  | succ n ih =>
      intro tbl
      rw [List.range_succ_eq_map]
      simp only [next_version_calls, List.map_cons, List.map_map]
      congr 1
      · simpa using next_version_fst tbl sid
      rw [ih, curVersion_next_self]
      apply List.map_congr_left
      intro i _
      simp only [Function.comp_apply]
      push_cast
      ring

theorem next_version_calls_mono (sid : String) (n : Nat) :
    ∀ (tbl : VersionTable) (sid' : String),
      curVersion tbl sid' ≤ curVersion (next_version_calls tbl sid n).2 sid' := by
  induction n with
  | zero => intro tbl sid'; simp [next_version_calls]
  | succ n ih =>
      intro tbl sid'
      calc curVersion tbl sid'
          ≤ curVersion (SeriesVersionRecord.next_version tbl sid).2 sid' :=
            curVersion_next_mono tbl sid sid'
        _ ≤ _ := ih (SeriesVersionRecord.next_version tbl sid).2 sid'

/-- C2: `NextVersion(series_id)` is a single upsert (one atomic step in this
embedding, with no separate read-then-write): on a table without the series
it inserts `last_version = 1` and returns 1; on any table it returns the
previous value plus one and stores it; any sequence of `n` calls for the
same series (hence any interleaving of `n` concurrent callers, each call
being atomic) returns the strictly increasing consecutive integers
`v0+1, …, v0+n` with no gaps and no duplicates; and `last_version` never
decreases for any series. -/
theorem allocator_upsert_consecutive_versions (tbl : VersionTable)
    (sid : String) (n : Nat) :
    ((lookupV tbl sid = none →
        (SeriesVersionRecord.next_version tbl sid).1 = 1 ∧
        lookupV (SeriesVersionRecord.next_version tbl sid).2 sid = some 1) ∧
      (SeriesVersionRecord.next_version tbl sid).1 = curVersion tbl sid + 1 ∧
      curVersion (SeriesVersionRecord.next_version tbl sid).2 sid =
        curVersion tbl sid + 1) ∧
    (next_version_calls tbl sid n).1 =
      (List.range n).map (fun i : Nat => curVersion tbl sid + (i : Int) + 1) ∧
    List.Chain' (fun a b => b = a + 1) (next_version_calls tbl sid n).1 ∧
    (∀ sid' : String,
      curVersion tbl sid' ≤ curVersion (next_version_calls tbl sid n).2 sid') := by
  refine ⟨⟨?_, next_version_fst tbl sid, curVersion_next_self tbl sid⟩,
    next_version_calls_formula sid n tbl, ?_, next_version_calls_mono sid n tbl⟩
  · intro h
    simp [SeriesVersionRecord.next_version, h, lookupV]
  · rw [next_version_calls_formula sid n tbl]
    cases n with
    | zero => simp
    | succ n =>
        rw [List.chain'_map]
        rw [List.chain'_range_succ]
        intro m _
        push_cast
        ring

/-- Witness for C2: on the empty table the first call returns version 1 and
three calls return exactly `[1, 2, 3]`. -/
theorem allocator_upsert_consecutive_versions_witness :
    (lookupV [] "s2" = none ∧
      (SeriesVersionRecord.next_version [] "s2").1 = 1 ∧
      lookupV (SeriesVersionRecord.next_version [] "s2").2 "s2" = some 1) ∧
    (next_version_calls [] "s2" 3).1 = [1, 2, 3] := by
  refine ⟨⟨rfl, (allocator_upsert_consecutive_versions [] "s2" 3).1.1 rfl⟩, ?_⟩
  have h := (allocator_upsert_consecutive_versions [] "s2" 3).2.1
  simpa [curVersion, lookupV] using h

/-! ## Lemmas about commits of metadata rows -/

theorem mem_upsertRow_self (rows : List AnomalyDetectionRecord)
    (m : AnomalyDetectionRecord) : m ∈ upsertRow rows m := by
  unfold upsertRow
  by_cases h : rows.any (fun r => r.series_id = m.series_id ∧ r.version = m.version)
  · rw [if_pos h]
    rw [List.any_eq_true] at h
    obtain ⟨r, hr, hp⟩ := h
    refine List.mem_map.2 ⟨r, hr, ?_⟩
    rw [if_pos (by simpa using hp)]
  · rw [if_neg h]
    simp

theorem mem_upsertRow_of_ne (rows : List AnomalyDetectionRecord)
    (m m' : AnomalyDetectionRecord) (hm' : m' ∈ rows)
    (h : ¬(m'.series_id = m.series_id ∧ m'.version = m.version)) :
    m' ∈ upsertRow rows m := by
  unfold upsertRow
  by_cases hany : rows.any (fun r => r.series_id = m.series_id ∧ r.version = m.version)
  · rw [if_pos hany]
    refine List.mem_map.2 ⟨m', hm', ?_⟩
    rw [if_neg h]
  · rw [if_neg hany]
    exact List.mem_append_left _ hm'

/-- Committing a session whose last pending row is `m` leaves `m` among the
committed rows. -/
theorem mem_commit_last_pending (s : SessionState) (m : AnomalyDetectionRecord) :
    m ∈ ((s.add m).commit).db.models := by
  simp only [SessionState.add, SessionState.commit, List.foldl_append, List.foldl]
  exact mem_upsertRow_self _ m

/-- C3: `Save` on a record built with a null version calls the version
allocator (the stored and returned version is the series' previous
`last_version` plus one, and the committed counter reflects it), persists
the row and returns the resolved version; `Save` on a record with a pre-set
version persists it with that version unchanged, returns it and leaves the
version table untouched; and `Save` is not idempotent: saving two
null-version records for the same series allocates two distinct consecutive
versions. -/
theorem record_save_version_assignment (s : SessionState) (sid : String)
    (mp dp : Option String) (now : Int) :
    (∀ r, r = AnomalyDetectionRecord.save s
        (AnomalyDetectionRecord.build sid none mp dp now) →
      r.1 = curVersion s.effVersions sid + 1 ∧
      r.2.1 = { AnomalyDetectionRecord.build sid none mp dp now with
                  version := some r.1 } ∧
      r.2.1 ∈ r.2.2.db.models ∧
      curVersion r.2.2.db.versions sid = curVersion s.effVersions sid + 1) ∧
    (∀ (v : Int) r, r = AnomalyDetectionRecord.save s
        (AnomalyDetectionRecord.build sid (some v) mp dp now) →
      r.1 = v ∧
      r.2.1 = AnomalyDetectionRecord.build sid (some v) mp dp now ∧
      r.2.1 ∈ r.2.2.db.models ∧
      r.2.2.db.versions = s.effVersions) ∧
    (∀ r1 r2, r1 = AnomalyDetectionRecord.save s
        (AnomalyDetectionRecord.build sid none mp dp now) →
      r2 = AnomalyDetectionRecord.save r1.2.2
        (AnomalyDetectionRecord.build sid none mp dp now) →
      r2.1 = r1.1 + 1 ∧ r1.1 ≠ r2.1) := by
  have hver : ∀ s' : SessionState,
      (AnomalyDetectionRecord.save s'
        (AnomalyDetectionRecord.build sid none mp dp now)).1 =
        curVersion s'.effVersions sid + 1 := by
    intro s'
    simp only [AnomalyDetectionRecord.save, AnomalyDetectionRecord.build]
    exact next_version_fst s'.effVersions sid
  refine ⟨?_, ?_, ?_⟩
  · intro r hr
    subst hr
    refine ⟨hver s, ?_, ?_, ?_⟩
    · simp only [AnomalyDetectionRecord.save, AnomalyDetectionRecord.build,
        next_version_fst]
    · simp only [AnomalyDetectionRecord.save, AnomalyDetectionRecord.build]
      exact mem_commit_last_pending _ _
    · simp only [AnomalyDetectionRecord.save, AnomalyDetectionRecord.build,
        SessionState.commit, SessionState.add, SessionState.effVersions,
        Option.getD_some]
      exact curVersion_next_self s.effVersions sid
  · intro v r hr
    subst hr
    refine ⟨rfl, rfl, ?_, ?_⟩
    · simp only [AnomalyDetectionRecord.save, AnomalyDetectionRecord.build]
      exact mem_commit_last_pending _ _
    · simp [AnomalyDetectionRecord.save, AnomalyDetectionRecord.build,
        SessionState.commit, SessionState.add, SessionState.effVersions]
  · intro r1 r2 h1 h2
    subst h1 h2
    have e1 := hver s
    have e2 := hver (AnomalyDetectionRecord.save s
      (AnomalyDetectionRecord.build sid none mp dp now)).2.2
    have heff : curVersion ((AnomalyDetectionRecord.save s
        (AnomalyDetectionRecord.build sid none mp dp now)).2.2).effVersions sid =
        curVersion s.effVersions sid + 1 := by
      simp only [AnomalyDetectionRecord.save, AnomalyDetectionRecord.build,
        SessionState.commit, SessionState.add, SessionState.effVersions,
        Option.getD_some, Option.getD_none]
      exact curVersion_next_self s.effVersions sid
    constructor
    · rw [e2, heff, e1]
    · rw [e2, heff, e1]
      omega

/-- Witness for C3: on an empty store, saving a null-version record for
series `s1` stores and returns version 1, and a second save returns the
distinct version 2. -/
theorem record_save_version_assignment_witness :
    ((AnomalyDetectionRecord.save ⟨⟨[], []⟩, [], none⟩
        (AnomalyDetectionRecord.build "s1" none none none 5)).1 = 1) ∧
    ((AnomalyDetectionRecord.save
        (AnomalyDetectionRecord.save ⟨⟨[], []⟩, [], none⟩
          (AnomalyDetectionRecord.build "s1" none none none 5)).2.2
        (AnomalyDetectionRecord.build "s1" none none none 5)).1 = 2) := by
  have h1 := ((record_save_version_assignment ⟨⟨[], []⟩, [], none⟩ "s1"
    none none 5).1 _ rfl).1
  have h2 := ((record_save_version_assignment ⟨⟨[], []⟩, [], none⟩ "s1"
    none none 5).2.2 _ _ rfl rfl).1
  have hv : curVersion (SessionState.effVersions ⟨⟨[], []⟩, [], none⟩) "s1" = 0 := by
    simp [SessionState.effVersions, curVersion, lookupV]
  constructor
  · rw [h1, hv]; norm_num
  · rw [h2, h1, hv]; norm_num

/-- C7: `Update(model_path, data_path)` on a record with no active session
association fails with the distinct programmer-error
`RuntimeError("AnomalyDetectionRecord is not attached to a session")` and
persists nothing (no session state is produced); on an attached record it
sets both paths together, refreshes `updated_at`, and persists the row:
the updated row is among the committed rows of the resulting session. -/
theorem record_update_attachment (m : AnomalyDetectionRecord)
    (mp dp : Option String) (now : Int) :
    (AnomalyDetectionRecord.update m mp dp now none =
      .error "AnomalyDetectionRecord is not attached to a session") ∧
    (∀ s : SessionState,
      AnomalyDetectionRecord.update m mp dp now (some s) =
        .ok ({ m with model_path := mp, data_path := dp, updated_at := now }, ((s.add { m with model_path := mp, data_path := dp, updated_at := now }).commit)) ∧
      { m with model_path := mp, data_path := dp, updated_at := now } ∈
        (((s.add { m with model_path := mp, data_path := dp, updated_at := now }).commit).db.models)) := by
  refine ⟨rfl, fun s => ⟨rfl, mem_commit_last_pending s _⟩⟩

/-- C8: with a configured minimum of `m ≥ 2` points (default 3), the full
training validation accepts a series of exactly `m` points with strictly
increasing timestamps and non-constant values, and rejects with a
validation error a series with one fewer point, a series whose timestamps
are not strictly increasing, and a series whose values are all equal. -/
theorem training_validation_boundary (m : Nat) (data : List DataPoint)
    (hm : 2 ≤ m) :
    ((data.length = m ∧
      ((data.map (·.timestamp)).zip ((data.map (·.timestamp)).drop 1)).any
        (fun p => p.2 ≤ p.1) = false ∧
      constantValues (data.map (·.value)) = false) →
      trainingValidation m data = .ok ⟨data⟩) ∧
    (data.length + 1 = m → ∃ msg, trainingValidation m data = .error msg) ∧
    (((data.map (·.timestamp)).zip ((data.map (·.timestamp)).drop 1)).any
        (fun p => p.2 ≤ p.1) = true →
      ∃ msg, trainingValidation m data = .error msg) ∧
    (constantValues (data.map (·.value)) = true →
      ∃ msg, trainingValidation m data = .error msg) := by
  unfold trainingValidation TimeSeries.validate_series_shape
    TimeSeries.validate_for_training
  refine ⟨?_, ?_, ?_, ?_⟩
  · rintro ⟨hlen, hmono, hconst⟩
    rw [if_neg (by simp only [hlen]; omega)]
    simp only [hmono, Bool.false_eq_true, if_false, Except.bind]
    rw [if_neg (by simp only [hlen]; omega)]
    simp [hconst]
  · intro hlen
    by_cases h2 : data.length < 2
    · rw [if_pos h2]
      exact ⟨_, rfl⟩
    · rw [if_neg h2]
      by_cases hmono : ((data.map (·.timestamp)).zip
          ((data.map (·.timestamp)).drop 1)).any (fun p => p.2 ≤ p.1)
      · simp only [hmono, if_true]
        exact ⟨_, rfl⟩
      · simp only [hmono, Bool.false_eq_true, if_false, Except.bind]
        rw [if_pos (by omega)]
        exact ⟨_, rfl⟩
  · intro hmono
    by_cases h2 : data.length < 2
    · rw [if_pos h2]
      exact ⟨_, rfl⟩
    · rw [if_neg h2]
      simp only [hmono, if_true]
      exact ⟨_, rfl⟩
  · intro hconst
    by_cases h2 : data.length < 2
    · rw [if_pos h2]
      exact ⟨_, rfl⟩
    · rw [if_neg h2]
      by_cases hmono : ((data.map (·.timestamp)).zip
          ((data.map (·.timestamp)).drop 1)).any (fun p => p.2 ≤ p.1)
      · simp only [hmono, if_true]
        exact ⟨_, rfl⟩
      · simp only [hmono, Bool.false_eq_true, if_false, Except.bind]
        by_cases hlen : data.length < m
        · rw [if_pos hlen]
          exact ⟨_, rfl⟩
        · rw [if_neg hlen]
          simp only [hconst, if_true]
          exact ⟨_, rfl⟩

/-- Witness for C8 at the default minimum of 3 points: a 3-point strictly
increasing, non-constant series is accepted; a 2-point series, a series
with a repeated timestamp, and an all-constant series are rejected. -/
theorem training_validation_boundary_witness :
    (trainingValidation 3 [⟨0, 1⟩, ⟨1, 2⟩, ⟨2, 1⟩] =
      .ok ⟨[⟨0, 1⟩, ⟨1, 2⟩, ⟨2, 1⟩]⟩) ∧
    (∃ msg, trainingValidation 3 [⟨0, 1⟩, ⟨1, 2⟩] = .error msg) ∧
    (∃ msg, trainingValidation 3 [⟨0, 1⟩, ⟨0, 2⟩, ⟨1, 3⟩] = .error msg) ∧
    (∃ msg, trainingValidation 3 [⟨0, 5⟩, ⟨1, 5⟩, ⟨2, 5⟩] = .error msg) := by
  refine ⟨?_, ?_, ?_, ?_⟩
  · exact (training_validation_boundary 3 [⟨0, 1⟩, ⟨1, 2⟩, ⟨2, 1⟩]
      (by norm_num)).1 ⟨by decide, by decide, by decide⟩
  · exact (training_validation_boundary 3 [⟨0, 1⟩, ⟨1, 2⟩]
      (by norm_num)).2.1 (by decide)
  · exact (training_validation_boundary 3 [⟨0, 1⟩, ⟨0, 2⟩, ⟨1, 3⟩]
      (by norm_num)).2.2.1 (by decide)
  · exact (training_validation_boundary 3 [⟨0, 5⟩, ⟨1, 5⟩, ⟨2, 5⟩]
      (by norm_num)).2.2.2 (by decide)

/-- C10: the anomaly rule is one-sided and strict.  After fitting,
`predict` answers true exactly when the query value is strictly greater
than `mean + 3 * std`; a value equal to that threshold is never flagged; a
value at or below the mean (any distance below included) is never flagged,
because the standard deviation is nonnegative; and `predict` on a model
that was neither fitted nor loaded raises
`ValueError("Model must be trained before prediction.")`. -/
theorem simple_model_one_sided_rule (data : TimeSeries) (p : DataPoint) :
    (SimpleModel.predict (some (SimpleModel.fit data)) p = .ok true ↔
      (p.value : ℝ) > (SimpleModel.fit data).mean + 3 * (SimpleModel.fit data).std) ∧
    ((p.value : ℝ) = (SimpleModel.fit data).mean + 3 * (SimpleModel.fit data).std →
      SimpleModel.predict (some (SimpleModel.fit data)) p = .ok false) ∧
    ((p.value : ℝ) ≤ (SimpleModel.fit data).mean →
      SimpleModel.predict (some (SimpleModel.fit data)) p = .ok false) ∧
    SimpleModel.predict none p =
      .error (.valueError "Model must be trained before prediction.") := by
  have hstd : 0 ≤ (SimpleModel.fit data).std := by
    simp only [SimpleModel.fit, npStd]
    exact Real.sqrt_nonneg _
  refine ⟨?_, ?_, ?_, rfl⟩
  · simp [SimpleModel.predict]
  · intro h
    simp only [SimpleModel.predict, Except.ok.injEq]
    rw [decide_eq_false_iff_not]
    rw [h]
    exact lt_irrefl _
  · intro h
    simp only [SimpleModel.predict, Except.ok.injEq]
    rw [decide_eq_false_iff_not]
    intro hgt
    have : (p.value : ℝ) ≤ (SimpleModel.fit data).mean + 3 * (SimpleModel.fit data).std := by
      nlinarith
    exact absurd hgt (not_lt.2 this)

/-- Witness for C10: fitting on values `[1, 3]` gives mean 2 and std 1, so
the threshold is 5: the point with value 5 (exactly the threshold) is not
flagged, the point with value 0 (below the mean) is not flagged, and an
unfitted model raises the training-required error. -/
theorem simple_model_one_sided_rule_witness :
    SimpleModel.predict (some (SimpleModel.fit ⟨[⟨0, 1⟩, ⟨1, 3⟩]⟩)) ⟨2, 5⟩ =
      .ok false ∧
    SimpleModel.predict (some (SimpleModel.fit ⟨[⟨0, 1⟩, ⟨1, 3⟩]⟩)) ⟨2, 0⟩ =
      .ok false ∧
    SimpleModel.predict none (⟨2, 5⟩ : DataPoint) =
      .error (.valueError "Model must be trained before prediction.") := by
  have hm : (SimpleModel.fit ⟨[⟨0, 1⟩, ⟨1, 3⟩]⟩).mean = 2 := by
    simp only [SimpleModel.fit, npMean, List.map, List.sum_cons, List.sum_nil,
      List.length_cons, List.length_nil]
    norm_num
  have hs : (SimpleModel.fit ⟨[⟨0, 1⟩, ⟨1, 3⟩]⟩).std = 1 := by
    simp only [SimpleModel.fit, npStd, npMean, List.map, List.sum_cons,
      List.sum_nil, List.length_cons, List.length_nil]
    rw [show ((((1 : ℚ) : ℝ) + (((3 : ℚ) : ℝ) + 0)) / ((0 : ℕ) + 1 + 1 : ℕ) : ℝ)
      = 2 by push_cast; norm_num]
    rw [show (((((1 : ℚ) : ℝ) - 2) ^ 2 + (((((3 : ℚ) : ℝ) - 2) ^ 2) + 0)) /
      ((0 : ℕ) + 1 + 1 : ℕ) : ℝ) = 1 by push_cast; norm_num]
    exact Real.sqrt_one
  refine ⟨?_, ?_, (simple_model_one_sided_rule ⟨[⟨0, 1⟩, ⟨1, 3⟩]⟩ ⟨2, 5⟩).2.2.2⟩
  · refine (simple_model_one_sided_rule ⟨[⟨0, 1⟩, ⟨1, 3⟩]⟩ ⟨2, 5⟩).2.1 ?_
    rw [hm, hs]
    norm_num
  · refine (simple_model_one_sided_rule ⟨[⟨0, 1⟩, ⟨1, 3⟩]⟩ ⟨2, 0⟩).2.2.1 ?_
    rw [hm]
    norm_num

/-! ## Lemmas for the storage round trip -/

/-- Parsing back a dumped `ModelState` recovers it exactly, for every model
identifier and every parameter and metrics mapping. -/
theorem model_validate_model_dump (st : ModelState) :
    ModelState.model_validate st.model_dump = .ok st := by
  obtain ⟨m, ps, mt⟩ := st
  cases mt <;> rfl

theorem fsRead_fsWrite (fs : FileSystem) (path : String) (j : Json) :
    fsRead (fsWrite fs path j) path = some j := by
  simp [fsRead, fsWrite]

theorem s3Get_s3Put (objs : S3Objects) (bucket key : String) (j : Json) :
    s3Get (s3Put objs bucket key j) bucket key = some j := by
  simp [s3Get, s3Put]

theorem dropWhile_eq_self_of_head (p : Char → Bool) (l : List Char)
    (h : ∀ c, l.head? = some c → p c = false) : l.dropWhile p = l := by
  cases l with
  | nil => rfl
  | cons a t =>
      rw [List.dropWhile_cons_of_neg]
      simp [h a rfl]

/-- `strip` leaves a string alone when its first and last characters are not
whitespace. -/
theorem pyStrip_eq_self (l : List Char)
    (h1 : ∀ c, l.head? = some c → c.isWhitespace = false)
    (h2 : ∀ c, l.getLast? = some c → c.isWhitespace = false) :
    pyStrip l = l := by
  unfold pyStrip
  rw [dropWhile_eq_self_of_head _ _ h1]
  rw [dropWhile_eq_self_of_head _ _ (fun c hc => h2 c (by
    rwa [List.head?_reverse] at hc))]
  exact List.reverse_reverse l

/-- Partitioning on the first slash after a slash-free bucket recovers the
bucket and the key. -/
theorem partitionChar_slash_append (bucket key : List Char)
    (h : '/' ∉ bucket) :
    partitionChar '/' (bucket ++ '/' :: key) = (bucket, true, key) := by
  induction bucket with
  | nil => simp [partitionChar]
  | cons a t ih =>
      have ha : a ≠ '/' := fun hc => h (hc ▸ List.mem_cons_self a t)
      have ht : '/' ∉ t := fun hc => h (List.mem_cons_of_mem a hc)
      simp only [List.cons_append, partitionChar, if_neg ha]
      rw [show t.append ('/' :: key) = t ++ '/' :: key from rfl, ih ht]

theorem uri_data (bucket key : String) :
    (AWSS3Storage.to_uri bucket key).data =
      's' :: '3' :: ':' :: '/' :: '/' :: (bucket.data ++ '/' :: key.data) := by
  simp [AWSS3Storage.to_uri, String.data_append]

/-- Every object key built by the backend ends in `.json`: its character
list is some front followed by `['.', 'j', 's', 'o', 'n']`. -/
theorem object_key_json_shape (kp sid : String) (version : Int) :
    ∃ kfront : List Char,
      (AWSS3Storage.object_key kp sid
        (sid ++ "_model_v" ++ toString version ++ ".json")).data =
        kfront ++ ['.', 'j', 's', 'o', 'n'] := by
  unfold AWSS3Storage.object_key
  by_cases h : kp = ""
  · refine ⟨sid.data ++ '/' :: (sid.data ++ '_' :: 'm' :: 'o' :: 'd' :: 'e' ::
      'l' :: '_' :: 'v' :: (toString version).data), ?_⟩
    simp [h, String.data_append, List.append_assoc]
  · refine ⟨kp.data ++ '/' :: (sid.data ++ '/' :: (sid.data ++ '_' :: 'm' ::
      'o' :: 'd' :: 'e' :: 'l' :: '_' :: 'v' :: (toString version).data)), ?_⟩
    simp [h, String.data_append, List.append_assoc]

theorem getLast?_ends_json (x : Char) (front : List Char) :
    (x :: (front ++ ['.', 'j', 's', 'o', 'n'])).getLast? = some 'n' := by
  rw [show x :: (front ++ ['.', 'j', 's', 'o', 'n']) =
    (x :: (front ++ ['.', 'j', 's', 'o'])) ++ ['n'] by simp]
  exact List.getLast?_concat _

/-- C9: for every `ModelState` (any model identifier, any parameter and
metrics mappings) and either backend, `SaveState` followed by `LoadState`
of the returned path yields the original state.  For the object-store
backend this holds for every bucket name that is non-empty and slash-free
(as S3 bucket names are) and every prefix, series and version. -/
theorem storage_state_round_trip (st : ModelState) :
    (∀ (folder series_id : String) (version : Int) (fs : FileSystem),
      LocalStorage.load_state
        (LocalStorage.save_state folder fs series_id version st).2
        (LocalStorage.save_state folder fs series_id version st).1 = .ok st) ∧
    (∀ (bucket kp series_id : String) (version : Int) (objs : S3Objects),
      bucket ≠ "" → '/' ∉ bucket.data →
      AWSS3Storage.load_state bucket
        (AWSS3Storage.save_state bucket kp objs series_id version st).2
        (AWSS3Storage.save_state bucket kp objs series_id version st).1 =
          .ok st) := by
  constructor
  · intro folder sid version fs
    simp [LocalStorage.load_state, LocalStorage.save_state, fsRead_fsWrite,
      model_validate_model_dump]
  · intro bucket kp sid version objs hb hslash
    obtain ⟨kfront, hkey⟩ := object_key_json_shape kp sid version
    set key := AWSS3Storage.object_key kp sid
      (sid ++ "_model_v" ++ toString version ++ ".json") with hkeydef
    have hbdata : bucket.data ≠ [] := by
      intro hd
      apply hb
      cases bucket
      exact congrArg String.mk hd
    have hkdata : key.data ≠ [] := by
      rw [hkey]
      simp
    have hstrip : pyStrip (AWSS3Storage.to_uri bucket key).data =
        (AWSS3Storage.to_uri bucket key).data := by
      apply pyStrip_eq_self
      · intro c hc
        rw [uri_data] at hc
        simp only [List.head?_cons, Option.some.injEq] at hc
        subst hc
        decide
      · intro c hc
        rw [uri_data] at hc
        rw [show ('s' :: '3' :: ':' :: '/' :: '/' ::
            (bucket.data ++ '/' :: key.data)) =
          ['s', '3', ':', '/', '/'] ++ (bucket.data ++ '/' :: key.data)
          from rfl] at hc
        rw [List.getLast?_append_of_ne_nil _ (by simp)] at hc
        rw [List.getLast?_append_cons] at hc
        rw [hkey] at hc
        rw [getLast?_ends_json] at hc
        cases hc
        decide
    have hres : AWSS3Storage.resolve_bucket_and_key bucket
        (AWSS3Storage.to_uri bucket key) = .ok (bucket, key) := by
      unfold AWSS3Storage.resolve_bucket_and_key
      simp only [hstrip]
      simp only [uri_data]
      rw [if_pos (by
        rw [show ('s' :: '3' :: ':' :: '/' :: '/' ::
            (bucket.data ++ '/' :: key.data)) =
          "s3://".data ++ (bucket.data ++ '/' :: key.data) from rfl]
        exact List.isPrefixOf_iff_prefix.2 (List.prefix_append _ _))]
      rw [show List.drop 5 ('s' :: '3' :: ':' :: '/' :: '/' ::
          (bucket.data ++ '/' :: key.data)) = bucket.data ++ '/' :: key.data
        from rfl]
      rw [partitionChar_slash_append _ _ hslash]
      rw [if_neg (by simp [hbdata, hkdata])]
    rw [show AWSS3Storage.save_state bucket kp objs sid version st =
      (AWSS3Storage.to_uri bucket key, s3Put objs bucket key st.model_dump)
      from rfl]
    simp only [AWSS3Storage.load_state, hres, s3Get_s3Put,
      model_validate_model_dump]

/-- Witness for C9: a concrete state round-trips through both backends with
bucket `models-bucket`, empty prefix, series `s1`, version 1. -/
theorem storage_state_round_trip_witness :
    (LocalStorage.load_state
      (LocalStorage.save_state "./data/models" []
        "s1" 1 ⟨"anomaly_detection_model", [("mean", .num 2), ("std", .num 1)], none⟩).2
      (LocalStorage.save_state "./data/models" []
        "s1" 1 ⟨"anomaly_detection_model", [("mean", .num 2), ("std", .num 1)], none⟩).1 =
      .ok ⟨"anomaly_detection_model", [("mean", .num 2), ("std", .num 1)], none⟩) ∧
    ("models-bucket" : String) ≠ "" ∧ '/' ∉ ("models-bucket" : String).data ∧
    (AWSS3Storage.load_state "models-bucket"
      (AWSS3Storage.save_state "models-bucket" "" []
        "s1" 1 ⟨"anomaly_detection_model", [("mean", .num 2), ("std", .num 1)], none⟩).2
      (AWSS3Storage.save_state "models-bucket" "" []
        "s1" 1 ⟨"anomaly_detection_model", [("mean", .num 2), ("std", .num 1)], none⟩).1 =
      .ok ⟨"anomaly_detection_model", [("mean", .num 2), ("std", .num 1)], none⟩) := by
  refine ⟨(storage_state_round_trip _).1 "./data/models" "s1" 1 [],
    by decide, by decide,
    (storage_state_round_trip _).2 "models-bucket" "" "s1" 1 []
      (by decide) (by decide)⟩

/-! ## Lemmas about metadata resolution -/

theorem foldl_laterRow_spec (rows : List AnomalyDetectionRecord) :
    ∀ b : AnomalyDetectionRecord,
      ∃ r, rows.foldl (fun acc x =>
          match acc with
          | none => some x
          | some y => some (laterRow y x)) (some b) = some r ∧
        (r = b ∨ r ∈ rows) ∧ b.ver ≤ r.ver ∧ ∀ x ∈ rows, x.ver ≤ r.ver := by
  induction rows with
  | nil => intro b; exact ⟨b, rfl, Or.inl rfl, le_refl _, by simp⟩
  | cons c t ih =>
      intro b
      obtain ⟨r, hfold, hmem, hble, hall⟩ := ih (laterRow b c)
      have hb : b.ver ≤ (laterRow b c).ver := by
        unfold laterRow
        split <;> omega
      have hc : c.ver ≤ (laterRow b c).ver := by
        unfold laterRow
        split <;> omega
      refine ⟨r, hfold, ?_, le_trans hb hble, ?_⟩
      · rcases hmem with h | h
        · subst h
          unfold laterRow
          split
          · exact Or.inr (List.mem_cons_self c t)
          · exact Or.inl rfl
        · exact Or.inr (List.mem_cons_of_mem c h)
      · intro x hx
        rcases List.mem_cons.1 hx with h | h
        · subst h
          exact le_trans hc hble
        · exact hall x h

theorem maxVersionRow_spec (rows : List AnomalyDetectionRecord)
    (h : rows ≠ []) :
    ∃ r, maxVersionRow rows = some r ∧ r ∈ rows ∧
      ∀ x ∈ rows, x.ver ≤ r.ver := by
  cases rows with
  | nil => exact absurd rfl h
  | cons c t =>
      obtain ⟨r, hfold, hmem, hble, hall⟩ := foldl_laterRow_spec t c
      refine ⟨r, by simpa [maxVersionRow, List.foldl] using hfold, ?_, ?_⟩
      · rcases hmem with hr | hr
        · exact hr ▸ List.mem_cons_self c t
        · exact List.mem_cons_of_mem c hr
      · intro x hx
        rcases List.mem_cons.1 hx with hx | hx
        · exact hx ▸ hble
        · exact hall x hx

/-- C4: prediction resolves the metadata record by version.  Version 0
resolves to the row of maximum version for the series; any other version
resolves to exactly that row; a missing row surfaces the not-found error
(HTTP 404); and the `model_version` string of a successful prediction
response is the version of the row actually used — the resolved one, not
the requested one. -/
theorem predict_version_resolution (db : DBState) (sid : String) :
    ((db.models.filter (fun r => r.series_id = sid)) ≠ [] →
      ∃ r, PredictService.get_model_data db sid 0 = .ok r ∧
        r ∈ db.models ∧ r.series_id = sid ∧
        ∀ x ∈ db.models, x.series_id = sid → x.ver ≤ r.ver) ∧
    ((db.models.filter (fun r => r.series_id = sid)) = [] →
      PredictService.get_model_data db sid 0 =
        .error ⟨404, "No model found for series_id '" ++ sid ++ "'."⟩) ∧
    (∀ v : Int, v ≠ 0 → ∀ r, PredictService.get_model_data db sid v = .ok r →
      r ∈ db.models ∧ r.series_id = sid ∧ r.version = some v) ∧
    (∀ v : Int, v ≠ 0 →
      (∀ x ∈ db.models, ¬(x.series_id = sid ∧ x.version = some v)) →
      PredictService.get_model_data db sid v =
        .error ⟨404, "Model version '" ++ toString v ++
          "' not found for series_id '" ++ sid ++ "'."⟩) ∧
    (∀ (loadSt : LoadStateFn) (runModel : RunModelFn) (v : Int)
        (p : DataPoint) (resp : PredictResponse),
      PredictService.predict loadSt runModel db sid v p = .ok resp →
      ∃ r, PredictService.get_model_data db sid v = .ok r ∧
        resp.model_version = toString r.ver) := by
  refine ⟨?_, ?_, ?_, ?_, ?_⟩
  · intro hne
    obtain ⟨r, hmax, hmem, hbound⟩ := maxVersionRow_spec _ hne
    refine ⟨r, ?_, ?_, ?_, ?_⟩
    · simp [PredictService.get_model_data,
        AnomalyDetectionRecord.get_last_model, hmax]
    · exact (List.mem_filter.1 hmem).1
    · have := (List.mem_filter.1 hmem).2
      simpa using this
    · intro x hx hxs
      exact hbound x (List.mem_filter.2 ⟨hx, by simpa using hxs⟩)
  · intro hnil
    simp [PredictService.get_model_data,
      AnomalyDetectionRecord.get_last_model, hnil, maxVersionRow, List.foldl]
  · intro v hv r hr
    unfold PredictService.get_model_data
      AnomalyDetectionRecord.get_model_version at hr
    rw [if_neg hv] at hr
    cases hfind : db.models.find?
        (fun x => decide (x.series_id = sid ∧ x.version = some v)) with
    | none =>
        rw [hfind] at hr
        simp at hr
    | some r' =>
        rw [hfind] at hr
        simp only [Except.ok.injEq] at hr
        subst hr
        have h1 := List.mem_of_find?_eq_some hfind
        have h2 := List.find?_some hfind
        simp only [decide_eq_true_eq] at h2
        exact ⟨h1, h2.1, h2.2⟩
  · intro v hv hnone
    unfold PredictService.get_model_data AnomalyDetectionRecord.get_model_version
    rw [if_neg hv]
    rw [List.find?_eq_none.2 (by
      intro x hx
      simpa using hnone x hx)]
  · intro loadSt runModel v p resp hok
    cases hval : PredictService.validate_predict_inputs sid v with
    | error e =>
        unfold PredictService.predict at hok
        simp only [hval] at hok
        exact Except.noConfusion hok
    | ok u =>
        cases hmd : PredictService.get_model_data db sid v with
        | error e =>
            unfold PredictService.predict at hok
            simp only [hval, hmd] at hok
            exact Except.noConfusion hok
        | ok md =>
            cases hmp : md.model_path with
            | none =>
                unfold PredictService.predict at hok
                simp only [hval, hmd, hmp] at hok
                exact Except.noConfusion hok
            | some mp =>
                cases hrun : (loadSt mp).bind (fun s => runModel s p) with
                | error e =>
                    unfold PredictService.predict at hok
                    simp only [hval, hmd, hmp, hrun] at hok
                    cases e <;> simp_all
                | ok b =>
                    unfold PredictService.predict at hok
                    simp only [hval, hmd, hmp, hrun] at hok
                    refine ⟨md, rfl, ?_⟩
                    injection hok with h
                    rw [← h]

/-- Witness for C4: on a store holding versions 1 and 2 of series `s1`,
version 0 resolves to a row (the one of maximum version), and a concrete
prediction run answers with the resolved version string `2`, not the
requested `0`. -/
theorem predict_version_resolution_witness :
    ((DBState.mk [("s1", 2)]
        [⟨"s1", some 1, some "p1", none, 0, 0⟩,
         ⟨"s1", some 2, some "p2", none, 0, 0⟩]).models.filter
      (fun r => r.series_id = "s1") ≠ [] ∧
      ∃ r, PredictService.get_model_data
          (DBState.mk [("s1", 2)]
            [⟨"s1", some 1, some "p1", none, 0, 0⟩,
             ⟨"s1", some 2, some "p2", none, 0, 0⟩]) "s1" 0 = .ok r ∧
        r ∈ (DBState.mk [("s1", 2)]
            [⟨"s1", some 1, some "p1", none, 0, 0⟩,
             ⟨"s1", some 2, some "p2", none, 0, 0⟩]).models ∧
        r.series_id = "s1" ∧
        ∀ x ∈ (DBState.mk [("s1", 2)]
            [⟨"s1", some 1, some "p1", none, 0, 0⟩,
             ⟨"s1", some 2, some "p2", none, 0, 0⟩]).models,
          x.series_id = "s1" → x.ver ≤ r.ver) ∧
    PredictService.predict (fun _ => .ok ⟨"anomaly_detection_model", [], none⟩)
      (fun _ _ => .ok true)
      (DBState.mk [("s1", 2)]
        [⟨"s1", some 1, some "p1", none, 0, 0⟩,
         ⟨"s1", some 2, some "p2", none, 0, 0⟩]) "s1" 0 ⟨5, 100⟩ =
      .ok ⟨true, "2"⟩ := by
  refine ⟨⟨by decide, (predict_version_resolution
    (DBState.mk [("s1", 2)]
      [⟨"s1", some 1, some "p1", none, 0, 0⟩,
       ⟨"s1", some 2, some "p2", none, 0, 0⟩]) "s1").1 (by decide)⟩, ?_⟩
  rfl

/-- C6: during prediction, a resolved record whose `model_path` is null
yields `InternalError` (HTTP 500, "Model path is missing ...", a
server-bug signal), whereas a record with a path whose artifact is missing
from storage yields `NotFoundError` (HTTP 404, "Model artifact was not
found ..."): the two failure modes carry distinct status codes. -/
theorem predict_failure_modes (loadSt : LoadStateFn) (runModel : RunModelFn)
    (db : DBState) (sid : String) (v : Int) (p : DataPoint)
    (r : AnomalyDetectionRecord)
    (hval : PredictService.validate_predict_inputs sid v = .ok ())
    (hres : PredictService.get_model_data db sid v = .ok r) :
    (r.model_path = none →
      PredictService.predict loadSt runModel db sid v p =
        .error ⟨500, "Model path is missing for series_id '" ++ sid ++
          "' and version '" ++ toString r.ver ++ "'."⟩) ∧
    (∀ mp, r.model_path = some mp →
      loadSt mp = .error (.fileNotFoundError mp) →
      PredictService.predict loadSt runModel db sid v p =
        .error ⟨404, "Model artifact was not found at path '" ++ mp ++ "'."⟩) ∧
    (500 : Nat) ≠ 404 := by
  refine ⟨?_, ?_, by omega⟩
  · intro hmp
    unfold PredictService.predict
    simp only [hval, hres, hmp]
  · intro mp hmp hload
    unfold PredictService.predict
    have hbind : (loadSt mp).bind (fun st => runModel st p) =
        .error (.fileNotFoundError mp) := by
      rw [hload]
      rfl
    simp only [hval, hres, hmp, hbind]

/-- Witness for C6: a resolved row with a null path produces the 500
"model path missing" response, and a resolved row whose artifact is absent
from storage produces the 404 "artifact not found" response. -/
theorem predict_failure_modes_witness :
    PredictService.predict (fun pth => .error (.fileNotFoundError pth))
      (fun _ _ => .ok true)
      (DBState.mk [("s1", 1)] [⟨"s1", some 1, none, none, 0, 0⟩])
      "s1" 0 ⟨5, 100⟩ =
      .error ⟨500, "Model path is missing for series_id 's1' and version '1'."⟩ ∧
    PredictService.predict (fun pth => .error (.fileNotFoundError pth))
      (fun _ _ => .ok true)
      (DBState.mk [("s1", 1)] [⟨"s1", some 1, some "p1", none, 0, 0⟩])
      "s1" 0 ⟨5, 100⟩ =
      .error ⟨404, "Model artifact was not found at path 'p1'."⟩ := by
  constructor
  · exact (predict_failure_modes (fun pth => .error (.fileNotFoundError pth))
      (fun _ _ => .ok true)
      (DBState.mk [("s1", 1)] [⟨"s1", some 1, none, none, 0, 0⟩])
      "s1" 0 ⟨5, 100⟩ ⟨"s1", some 1, none, none, 0, 0⟩ rfl rfl).1 rfl
  · exact (predict_failure_modes (fun pth => .error (.fileNotFoundError pth))
      (fun _ _ => .ok true)
      (DBState.mk [("s1", 1)] [⟨"s1", some 1, some "p1", none, 0, 0⟩])
      "s1" 0 ⟨5, 100⟩ ⟨"s1", some 1, some "p1", none, 0, 0⟩ rfl rfl).2.1
      "p1" rfl rfl

/-- C1: in `TrainService.train` the relational commit is deferred — `save`
only adds and flushes the placeholder row into the open transaction and
`update` attaches the paths without committing; the only commit is
`model_record.commit()` after both artifact writes succeed.  Hence on EVERY
error path (in particular on an artifact write failing after the record was
saved) the rollback discards the flushed-but-uncommitted placeholder: the
committed store is exactly what it was before the call, so no placeholder
row with null `model_path`/`data_path` survives a failed training attempt;
and a failing state-artifact write after a successful fit surfaces the
typed 500 error with the committed store unchanged. -/
theorem train_placeholder_rolled_back (tt : TrainerFn) (sst : SaveStateFn)
    (sdt : SaveDataFn) (min_points : Nat) (now : Int) (s : SessionState)
    (fs : FileSystem) (sid : String) (payload : List DataPoint) :
    (∀ e, (TrainService.train tt sst sdt min_points now s fs sid payload).1 =
        .error e →
      (TrainService.train tt sst sdt min_points now s fs sid payload).2.1.db =
        s.db ∧
      (TrainService.train tt sst sdt min_points now s fs sid payload).2.1.pendingModels = [] ∧
      (TrainService.train tt sst sdt min_points now s fs sid payload).2.1.pendingVersions = none) ∧
    (∀ ts st msg, trainingValidation min_points payload = .ok ts →
      tt ts = .ok st →
      (TrainService.train tt (fun _ _ _ _ => .error (.other msg)) sdt
          min_points now s fs sid payload).1 =
        .error ⟨500, "Unexpected error while training model."⟩ ∧
      (TrainService.train tt (fun _ _ _ _ => .error (.other msg)) sdt
          min_points now s fs sid payload).2.1.db = s.db) := by
  constructor
  · intro e he
    cases hval : trainingValidation min_points payload with
    | error msg =>
        unfold TrainService.train TrainService.trainCore at he ⊢
        simp only [hval] at he ⊢
        exact ⟨rfl, rfl, rfl⟩
    | ok ts =>
        cases htr : tt ts with
        | error exc =>
            unfold TrainService.train TrainService.trainCore at he ⊢
            simp only [hval, htr] at he ⊢
            exact ⟨rfl, rfl, rfl⟩
        | ok st =>
            cases hsst : sst fs sid
                (AnomalyDetection.save s
                  (AnomalyDetectionRecord.build sid none none none now)).1 st with
            | error exc =>
                unfold TrainService.train TrainService.trainCore at he ⊢
                simp only [hval, htr, hsst] at he ⊢
                exact ⟨rfl, rfl, rfl⟩
            | ok pr1 =>
                obtain ⟨mp, fs1⟩ := pr1
                cases hsdt : sdt fs1 sid
                    (AnomalyDetection.save s
                      (AnomalyDetectionRecord.build sid none none none now)).1 ts with
                | error exc =>
                    unfold TrainService.train TrainService.trainCore at he ⊢
                    simp only [hval, htr, hsst, hsdt] at he ⊢
                    exact ⟨rfl, rfl, rfl⟩
                | ok pr2 =>
                    obtain ⟨dp, fs2⟩ := pr2
                    unfold TrainService.train TrainService.trainCore at he
                    simp only [hval, htr, hsst, hsdt, AnomalyDetection.update,
                      AnomalyDetection.commit] at he
                    exact Except.noConfusion he
  · intro ts st msg hval htrain
    unfold TrainService.train TrainService.trainCore
    simp only [hval, htrain]
    exact ⟨rfl, rfl⟩

/-- Witness for C1: on an empty store, training series `s1` with a crashing
state-artifact write surfaces the 500 error and leaves the committed store
empty — the version-1 placeholder row does not survive the failed
attempt. -/
theorem train_placeholder_rolled_back_witness :
    trainingValidation 3 [⟨0, 1⟩, ⟨1, 2⟩, ⟨2, 1⟩] =
      .ok ⟨[⟨0, 1⟩, ⟨1, 2⟩, ⟨2, 1⟩]⟩ ∧
    (TrainService.train (fun _ => .ok ⟨"anomaly_detection_model", [("mean", Json.num 2)], none⟩)
        (fun _ _ _ _ => .error (.other "disk full"))
        (fun fs sid v ts => .ok (LocalStorage.save_data "./data/data" fs sid v ts))
        3 7 ⟨⟨[], []⟩, [], none⟩ [] "s1" [⟨0, 1⟩, ⟨1, 2⟩, ⟨2, 1⟩]).1 =
      .error ⟨500, "Unexpected error while training model."⟩ ∧
    (TrainService.train (fun _ => .ok ⟨"anomaly_detection_model", [("mean", Json.num 2)], none⟩)
        (fun _ _ _ _ => .error (.other "disk full"))
        (fun fs sid v ts => .ok (LocalStorage.save_data "./data/data" fs sid v ts))
        3 7 ⟨⟨[], []⟩, [], none⟩ [] "s1" [⟨0, 1⟩, ⟨1, 2⟩, ⟨2, 1⟩]).2.1.db =
      DBState.mk [] [] := by
  have h := (train_placeholder_rolled_back
    (fun _ => .ok ⟨"anomaly_detection_model", [("mean", Json.num 2)], none⟩)
    (fun _ _ _ _ => .error (.other "disk full"))
    (fun fs sid v ts => .ok (LocalStorage.save_data "./data/data" fs sid v ts))
    3 7 ⟨⟨[], []⟩, [], none⟩ [] "s1" [⟨0, 1⟩, ⟨1, 2⟩, ⟨2, 1⟩]).2
    ⟨[⟨0, 1⟩, ⟨1, 2⟩, ⟨2, 1⟩]⟩
    ⟨"anomaly_detection_model", [("mean", Json.num 2)], none⟩ "disk full"
    rfl rfl
  exact ⟨rfl, h.1, h.2⟩

/-- C5 (amended, for `TrainService.train`): every exception in the training
flow rolls back the relational transaction and surfaces a typed
`HTTPException` — 422 for bad input (`ValidationError`/`ValueError`),
re-raise of an inner `HTTPException`, 500 otherwise — never a raw
exception; a failure before the first commit leaves the committed store
untouched; and on success the response carries the series id, the resolved
(allocated) version and the count of points used. -/
theorem train_service_error_taxonomy (tt : TrainerFn) (sst : SaveStateFn)
    (sdt : SaveDataFn) (min_points : Nat) (now : Int) (s : SessionState)
    (fs : FileSystem) (sid : String) (payload : List DataPoint) :
    (∀ msg, trainingValidation min_points payload = .error msg →
      (TrainService.train tt sst sdt min_points now s fs sid payload).1 =
        .error ⟨422, msg⟩ ∧
      (TrainService.train tt sst sdt min_points now s fs sid payload).2.1.db =
        s.db) ∧
    (∀ ts msg, trainingValidation min_points payload = .ok ts →
      tt ts = .error (.other msg) →
      (TrainService.train tt sst sdt min_points now s fs sid payload).1 =
        .error ⟨500, "Unexpected error while training model."⟩ ∧
      (TrainService.train tt sst sdt min_points now s fs sid payload).2.1.db =
        s.db) ∧
    (∀ e, (TrainService.train tt sst sdt min_points now s fs sid payload).1 =
        .error e →
      (TrainService.train tt sst sdt min_points now s fs sid payload).2.1.pendingModels = [] ∧
      (TrainService.train tt sst sdt min_points now s fs sid payload).2.1.pendingVersions = none ∧
      ∃ exc : PyExc, e = TrainService.errorToHTTP exc) ∧
    (∀ exc : PyExc, (TrainService.errorToHTTP exc).status_code = 422 ∨
      (TrainService.errorToHTTP exc).status_code = 500 ∨
      ∃ he, exc = .httpException he ∧ TrainService.errorToHTTP exc = he) ∧
    (∀ resp, (TrainService.train tt sst sdt min_points now s fs sid payload).1 =
        .ok resp →
      ∃ ts, trainingValidation min_points payload = .ok ts ∧
        resp.series_id = sid ∧
        resp.version = toString (curVersion s.effVersions sid + 1) ∧
        resp.points_used = ts.data.length) := by
  refine ⟨?_, ?_, ?_, ?_, ?_⟩
  · intro msg h
    unfold TrainService.train TrainService.trainCore
    simp only [h]
    exact ⟨rfl, rfl⟩
  · intro ts msg hval htrain
    unfold TrainService.train TrainService.trainCore
    simp only [hval, htrain]
    exact ⟨rfl, rfl⟩
  · intro e he
    unfold TrainService.train at he ⊢
    rcases hcore : TrainService.trainCore tt sst sdt min_points now s fs
      sid payload with ⟨r, s', fs'⟩
    rw [hcore] at he
    cases r with
    | ok resp => exact Except.noConfusion he
    | error exc => exact ⟨rfl, rfl, exc, (Except.error.inj he).symm⟩
  · intro exc
    cases exc <;> simp [TrainService.errorToHTTP]
  · intro resp hresp
    cases hval : trainingValidation min_points payload with
    | error msg =>
        unfold TrainService.train TrainService.trainCore at hresp
        simp only [hval] at hresp
        exact Except.noConfusion hresp
    | ok ts =>
        cases htr : tt ts with
        | error e =>
            unfold TrainService.train TrainService.trainCore at hresp
            simp only [hval, htr] at hresp
            exact Except.noConfusion hresp
        | ok st =>
            cases hsst : sst fs sid
                (AnomalyDetection.save s
                  (AnomalyDetectionRecord.build sid none none none now)).1 st with
            | error e =>
                unfold TrainService.train TrainService.trainCore at hresp
                simp only [hval, htr, hsst] at hresp
                exact Except.noConfusion hresp
            | ok pr1 =>
                obtain ⟨mp, fs1⟩ := pr1
                cases hsdt : sdt fs1 sid
                    (AnomalyDetection.save s
                      (AnomalyDetectionRecord.build sid none none none now)).1 ts with
                | error e =>
                    unfold TrainService.train TrainService.trainCore at hresp
                    simp only [hval, htr, hsst, hsdt] at hresp
                    exact Except.noConfusion hresp
                | ok pr2 =>
                    obtain ⟨dp, fs2⟩ := pr2
                    unfold TrainService.train TrainService.trainCore at hresp
                    simp only [hval, htr, hsst, hsdt, AnomalyDetection.update,
                      AnomalyDetection.commit] at hresp
                    simp only [Except.ok.injEq] at hresp
                    refine ⟨ts, rfl, ?_, ?_, ?_⟩
                    · rw [← hresp]
                    · rw [← hresp]
                      simp only [TrainResponse.mk.injEq]
                      rw [show (AnomalyDetection.save s
                        (AnomalyDetectionRecord.build sid none none none now)).1 =
                        curVersion s.effVersions sid + 1 from ?_]
                      · simp only [AnomalyDetection.save,
                          AnomalyDetectionRecord.build]
                        exact next_version_fst s.effVersions sid
                    · rw [← hresp]

/-- Witness for C5's amended statement: a too-short payload surfaces the
typed 422 error with the validator's message and leaves the committed
store untouched. -/
theorem train_service_error_taxonomy_witness :
    trainingValidation 3 [⟨0, 1⟩] =
      .error "TimeSeries must contain at least 2 data points." ∧
    (TrainService.train (fun _ => .ok ⟨"anomaly_detection_model", [], none⟩)
        (fun fs sid v st => .ok (LocalStorage.save_state "./data/models" fs sid v st))
        (fun fs sid v ts => .ok (LocalStorage.save_data "./data/data" fs sid v ts))
        3 7 ⟨⟨[], []⟩, [], none⟩ [] "s1" [⟨0, 1⟩]).1 =
      .error ⟨422, "TimeSeries must contain at least 2 data points."⟩ ∧
    (TrainService.train (fun _ => .ok ⟨"anomaly_detection_model", [], none⟩)
        (fun fs sid v st => .ok (LocalStorage.save_state "./data/models" fs sid v st))
        (fun fs sid v ts => .ok (LocalStorage.save_data "./data/data" fs sid v ts))
        3 7 ⟨⟨[], []⟩, [], none⟩ [] "s1" [⟨0, 1⟩]).2.1.db =
      DBState.mk [] [] := by
  have h := (train_service_error_taxonomy
    (fun _ => .ok ⟨"anomaly_detection_model", [], none⟩)
    (fun fs sid v st => .ok (LocalStorage.save_state "./data/models" fs sid v st))
    (fun fs sid v ts => .ok (LocalStorage.save_data "./data/data" fs sid v ts))
    3 7 ⟨⟨[], []⟩, [], none⟩ [] "s1" [⟨0, 1⟩]).1
    "TimeSeries must contain at least 2 data points." rfl
  exact ⟨rfl, h.1, h.2⟩

/-- Counterexample for C5 as stated: in
`AnomalyDetectionTrainingService.train` (the second training flow the
claim covers), an exception raised by the trainer is swallowed — after the
rollback the call returns the plain boolean `False` instead of surfacing a
typed error — and even a successful call returns only `True`, not the
resolved version and point count. -/
theorem train_silent_false_counterexample :
    (AnomalyDetectionTrainingService.train (fun _ => .error (.other "numpy crashed"))
        (fun fs sid v st => .ok (LocalStorage.save_state "./data/models" fs sid v st))
        (fun fs sid v ts => .ok (LocalStorage.save_data "./data/data" fs sid v ts))
        3 7 ⟨⟨[], []⟩, [], none⟩ [] "s1" [⟨0, 1⟩, ⟨1, 2⟩, ⟨2, 1⟩]).1 =
      .ok false ∧
    (AnomalyDetectionTrainingService.train
        (fun _ => .ok ⟨"anomaly_detection_model", [], none⟩)
        (fun fs sid v st => .ok (LocalStorage.save_state "./data/models" fs sid v st))
        (fun fs sid v ts => .ok (LocalStorage.save_data "./data/data" fs sid v ts))
        3 7 ⟨⟨[], []⟩, [], none⟩ [] "s1" [⟨0, 1⟩, ⟨1, 2⟩, ⟨2, 1⟩]).1 =
      .ok true := by
  exact ⟨rfl, rfl⟩
